import Mathlib

/-!
Verification of the nRF52840 mbedTLS network wrapper.

Shallow embedding of `platform/nRF52840/mbedtls/network_mbedtls_wrapper.c`
(secure transport adapter over mbedTLS), together with proofs about its
timed read/write loops, connect sequencing, and teardown.

Modelling conventions:

* External collaborators (the mbedTLS engine, the read-only certificate
  store `rofs`, the raw transport, and the platform timer) are modelled as
  oracles.  Each call to `has_timer_expired` consumes the head of a
  `List Bool`; each call to an engine record-read/record-write primitive
  consumes the head of a `List Int` of return values.  A trace that runs
  out of oracle answers, or an engine answer outside the collaborator's
  documented interface (a positive byte count larger than the requested
  length), yields `none`; the wrapper's behaviour is modelled exactly on
  all in-contract traces.
* `size_t` arithmetic is 32-bit (the target is the 32-bit nRF52840), so
  the C increment `written_so_far += ret` is modelled as addition of the
  `int` return value followed by reduction modulo `2 ^ 32`.
* Out-parameters that the C code may leave unwritten (such as `*read_len`)
  are modelled as `Option Nat`: `some n` when the code stores `n`,
  `none` when the code returns without writing them.
* Compile-time-conditional debug blocks (`MBEDTLS_DEBUG_C`,
  `ENABLE_IOT_DEBUG`) only emit log text and are omitted.
-/

set_option autoImplicit false

/-- The `IoT_Error_t` values the wrapper can produce (from `aws_iot_error.h`),
restricted to the constructors this file uses. -/
inductive IoTError where
  | SUCCESS
  | NULL_VALUE_ERROR
  | NETWORK_PHYSICAL_LAYER_CONNECTED
  | NETWORK_MBEDTLS_ERR_CTR_DRBG_ENTROPY_SOURCE_FAILED
  | NETWORK_X509_ROOT_CRT_PARSE_ERROR
  | NETWORK_X509_DEVICE_CRT_PARSE_ERROR
  | NETWORK_PK_PRIVATE_KEY_PARSE_ERROR
  | NETWORK_ERR_NET_SOCKET_FAILED
  | NETWORK_ERR_NET_UNKNOWN_HOST
  | NETWORK_ERR_NET_CONNECT_FAILED
  | SSL_CONNECTION_ERROR
  | NETWORK_SSL_WRITE_ERROR
  | NETWORK_SSL_WRITE_TIMEOUT_ERROR
  | NETWORK_SSL_READ_ERROR
  | NETWORK_SSL_READ_TIMEOUT_ERROR
  | NETWORK_SSL_NOTHING_TO_READ
  deriving DecidableEq, Repr

/-- Constant `MBEDTLS_ERR_SSL_WANT_READ` (`-0x6900`). -/
def sslWantRead : Int := -0x6900

/-- Constant `MBEDTLS_ERR_SSL_WANT_WRITE` (`-0x6880`). -/
def sslWantWrite : Int := -0x6880

/-- Constant `MBEDTLS_ERR_SSL_TIMEOUT` (`-0x6800`). -/
def sslTimeout : Int := -0x6800

/-- Constant `MBEDTLS_ERR_NET_SOCKET_FAILED` (`-0x0042`). -/
def mbedtlsErrNetSocketFailed : Int := -0x0042

/-- Constant `MBEDTLS_ERR_NET_UNKNOWN_HOST` (`-0x0052`). -/
def mbedtlsErrNetUnknownHost : Int := -0x0052

/-- Constant `MBEDTLS_ERR_NET_CONNECT_FAILED` (`-0x0044`). -/
def mbedtlsErrNetConnectFailed : Int := -0x0044

/-- The `size_t` modulus of the 32-bit target. -/
def sizeTMod : Nat := 2 ^ 32

/-! ## `iot_tls_read` — the timed read loop -/

/-- The epilogue of `iot_tls_read` (source lines 462–471): once the loop has
stopped, `len` is the unfilled remainder of the buffer and `rx` the byte
count received so far.  Only the full-buffer branch writes `*read_len`
(second component `some rx`); the other branches leave it unwritten
(`none`).  The third component is the final value of the local `rxLen`,
kept as ghost information for specification purposes. -/
def readFinish (len rx : Nat) : IoTError × Option Nat × Nat :=
  if len = 0 then (.SUCCESS, some rx, rx)
  else if rx = 0 then (.NETWORK_SSL_NOTHING_TO_READ, none, rx)
  else (.NETWORK_SSL_READ_TIMEOUT_ERROR, none, rx)

/-- The `while (len > 0)` loop of `iot_tls_read` (source lines 445–460).
`len` is the remaining unfilled length, `rx` the bytes received so far.
Each iteration consumes one engine answer (a `mbedtls_ssl_read` return
value) and then — unless it returned — one timer answer
(`has_timer_expired`).  A positive answer advances the cursor; a zero
answer, or a negative answer other than want-read/want-write/timeout,
returns `NETWORK_SSL_READ_ERROR` at once without writing `*read_len`. -/
def readLoopRun : List Bool → List Int → Nat → Nat → Option (IoTError × Option Nat × Nat)
  | _, _, 0, rx => some (readFinish 0 rx)
  | _, [], _ + 1, _ => none
  | timer, r :: engine', n + 1, rx =>
    if 0 < r then
      if r.toNat ≤ n + 1 then
        match timer with
        | [] => none
        | q :: timer' =>
          if q then some (readFinish (n + 1 - r.toNat) (rx + r.toNat))
          else readLoopRun timer' engine' (n + 1 - r.toNat) (rx + r.toNat)
      else none
    else if r = 0 ∨ (r ≠ sslWantRead ∧ r ≠ sslWantWrite ∧ r ≠ sslTimeout) then
      some (.NETWORK_SSL_READ_ERROR, none, rx)
    else
      match timer with
      | [] => none
      | q :: timer' =>
        if q then some (readFinish (n + 1) rx)
        else readLoopRun timer' engine' (n + 1) rx

/-- Function `iot_tls_read` with ghost output: status, the `*read_len` out-parameter
(`none` when the code never writes it), and the final internal `rxLen`. -/
def readRun (timer : List Bool) (engine : List Int) (len : Nat) :
    Option (IoTError × Option Nat × Nat) :=
  readLoopRun timer engine len 0

/-- Function `iot_tls_read` (source lines 439–472): returns the status and the
`*read_len` out-parameter, which is `none` when the code returns without
writing it. -/
def iot_tls_read (timer : List Bool) (engine : List Int) (len : Nat) :
    Option (IoTError × Option Nat) :=
  (readRun timer engine len).map (fun r => (r.1, r.2.1))


/-! ## `iot_tls_write` — the timed write loop -/

/-- The inner `while` of `iot_tls_write` (source lines 414–422): keep calling
`mbedtls_ssl_write` on the unsent suffix (`off` is `written_so_far`, the
request length is `len - off`) as long as the timer has not expired and the
engine answers a non-positive retryable code.  Returns the final value of
the local `ret` (unchanged from the argument when the first timer query
already reports expiry — the C loop then exits before calling the engine
again), the `isErrorFlag` of the C code, the remaining oracle streams, and
the log of engine calls as `(offset, requested, returned)` triples. -/
def writeInner : List Bool → List Int → Nat → Nat → Int →
    Option (Int × Bool × List Bool × List Int × List (Nat × Nat × Int))
  | [], _, _, _, _ => none
  | true :: timer', engine, _, _, ret => some (ret, false, timer', engine, [])
  | false :: _, [], _, _, _ => none
  | false :: timer', r :: engine', off, len, _ret =>
    if 0 < r then
      if r.toNat ≤ len - off then some (r, false, timer', engine', [(off, len - off, r)])
      else none
    else if r = sslWantRead ∨ r = sslWantWrite then
      match writeInner timer' engine' off len r with
      | none => none
      | some (ret', ef, t, e, cs) => some (ret', ef, t, e, (off, len - off, r) :: cs)
    else some (r, true, timer', engine', [(off, len - off, r)])

/-- The outer `for` of `iot_tls_write` (source lines 412–426).  The loop
condition `written_so_far < len && !has_timer_expired(timer)` short-circuits,
so no timer query is consumed once `off < len` fails.  The loop increment
`written_so_far += ret` adds the C `int` value `ret` — possibly a negative
error code left in `ret` when the inner loop stopped on timer expiry — to
the 32-bit `size_t` cursor, hence the reduction modulo `2 ^ 32`.  `fuel`
bounds the number of iterations (each iteration consumes at least one timer
answer, so `timer.length + 1` always suffices). -/
def writeOuter (fuel : Nat) (timer : List Bool) (engine : List Int) (len off : Nat) (ret : Int) :
    Option (Nat × Bool × List Bool × List (Nat × Nat × Int)) :=
  match fuel with
  | 0 => none
  | fuel + 1 =>
    if off < len then
      match timer with
      | [] => none
      | q :: timer' =>
        if q then some (off, false, timer', [])
        else
          match writeInner timer' engine off len ret with
          | none => none
          | some (ret', ef, timer'', engine'', cs) =>
            if ef then some (off, true, timer'', cs)
            else
              match writeOuter fuel timer'' engine'' len
                  (((off : Int) + ret') % (sizeTMod : Int)).toNat ret' with
              | none => none
              | some (w, ef2, t3, cs2) => some (w, ef2, t3, cs ++ cs2)
    else some (off, false, timer, [])

/-- Function `iot_tls_write` with ghost call log (source lines 404–437): returns the
status, the `*written_len` out-parameter (always written, to
`written_so_far`), and the log of engine calls.  The final
`has_timer_expired` query in the return statement consumes one more timer
answer, but only when `isErrorFlag` is not set. -/
def writeRun (fuel : Nat) (timer : List Bool) (engine : List Int) (len : Nat) :
    Option (IoTError × Nat × List (Nat × Nat × Int)) :=
  match writeOuter fuel timer engine len 0 0 with
  | none => none
  | some (w, ef, timer', cs) =>
    if ef then some (.NETWORK_SSL_WRITE_ERROR, w, cs)
    else
      match timer' with
      | [] => none
      | q :: _ =>
        if q = true ∧ w ≠ len then some (.NETWORK_SSL_WRITE_TIMEOUT_ERROR, w, cs)
        else some (.SUCCESS, w, cs)

/-- Function `iot_tls_write` without the ghost call log: status and `*written_len`. -/
def iot_tls_write (fuel : Nat) (timer : List Bool) (engine : List Int) (len : Nat) :
    Option (IoTError × Nat) :=
  (writeRun fuel timer engine len).map (fun r => (r.1, r.2.1))


/-! ## `iot_tls_connect` — handshake driver -/

/-- The `TLSConnectParams` struct of `network_platform.h`: certificate
locations are nullable C string pointers, modelled as `Option String`. -/
structure TLSConnectParams where
  DestinationPort : Nat
  pDestinationURL : Option String
  pDeviceCertLocation : Option String
  pDevicePrivateKeyLocation : Option String
  pRootCALocation : Option String
  timeout_ms : Nat
  ServerVerificationFlag : Bool
  deriving DecidableEq, Repr

/-- Modes `MBEDTLS_SSL_VERIFY_REQUIRED` / `MBEDTLS_SSL_VERIFY_OPTIONAL`. -/
inductive Authmode where
  | required
  | optional
  deriving DecidableEq, Repr

/-- The observable part of `TLSDataParams`: the verification-result bitmask
`flags` (a field of the C struct), plus the attributes the wrapper stores
into the opaque mbedTLS configuration object — the authentication mode set
by `mbedtls_ssl_conf_authmode` and the record-read timeout set by
`mbedtls_ssl_conf_read_timeout` (`none` before the wrapper first sets
them). -/
structure TLSDataParams where
  flags : Nat
  authmode : Option Authmode
  readTimeout : Option Nat
  deriving DecidableEq, Repr

/-- The `Network` session object: connection parameters plus TLS data. -/
structure Network where
  tlsConnectParams : TLSConnectParams
  tlsDataParams : TLSDataParams
  deriving DecidableEq, Repr

/-- The engine / store / transport calls `iot_tls_connect` makes, in program
order.  One constructor per call site of the C function. -/
inductive Event where
  | net_init
  | ssl_init
  | ssl_config_init
  | ctr_drbg_init
  | x509_crt_init_ca
  | x509_crt_init_cli
  | pk_init
  | entropy_init
  | entropy_add_source
  | ctr_drbg_seed
  | rofs_readfile_root
  | x509_crt_parse_root
  | rofs_readfile_cert
  | x509_crt_parse_cli
  | rofs_readfile_key
  | pk_parse_key
  | net_connect
  | net_set_block
  | ssl_config_defaults
  | ssl_conf_verify
  | ssl_conf_authmode (m : Authmode)
  | ssl_conf_rng
  | ssl_conf_ca_chain
  | ssl_conf_own_cert
  | ssl_conf_read_timeout (ms : Nat)
  | ssl_setup
  | ssl_set_hostname
  | ssl_set_bio
  | ssl_handshake
  | ssl_get_record_expansion
  | ssl_get_verify_result
  deriving DecidableEq, Repr

/-- Return values of the external calls made during `iot_tls_connect`, one
field per fallible call site (the collaborators' behaviour on this run). -/
structure ConnectOracle where
  entropy_add_source_ret : Int
  ctr_drbg_seed_ret : Int
  rofs_root_ret : Int
  crt_parse_root_ret : Int
  rofs_cert_ret : Int
  crt_parse_cli_ret : Int
  rofs_key_ret : Int
  pk_parse_key_ret : Int
  net_connect_ret : Int
  net_set_block_ret : Int
  ssl_config_defaults_ret : Int
  ssl_conf_own_cert_ret : Int
  ssl_setup_ret : Int
  ssl_set_hostname_ret : Int
  handshake_rets : List Int
  record_expansion_ret : Int
  verify_result : Nat
  deriving Repr

/-- The tail of `iot_tls_connect` (source lines 399–401): restore the
steady-state record-read timeout (`IOT_SSL_READ_TIMEOUT = 10`) and return. -/
def connectFinish (e : IoTError) (net : Network) (tr : List Event) :
    IoTError × Network × List Event :=
  (e, { net with tlsDataParams := { net.tlsDataParams with readTimeout := some 10 } },
    tr ++ [.ssl_conf_read_timeout 10])

/-- The peer-verification step (source lines 376–389): performed only when
the session's `ServerVerificationFlag` is still set; it stores the
verification-result bitmask into `tlsDataParams.flags` and fails with
`SSL_CONNECTION_ERROR` on a non-zero bitmask.  Otherwise the step is
skipped. -/
def connectVerify (net : Network) (tr : List Event) (O : ConnectOracle) :
    IoTError × Network × List Event :=
  if net.tlsConnectParams.ServerVerificationFlag then
    let net := { net with tlsDataParams := { net.tlsDataParams with flags := O.verify_result } }
    let tr := tr ++ [.ssl_get_verify_result]
    if O.verify_result ≠ 0 then connectFinish .SSL_CONNECTION_ERROR net tr
    else connectFinish .SUCCESS net tr
  else connectFinish .SUCCESS net tr

/-- The `mbedtls_ssl_handshake` retry loop (source lines 351–364): returns
`some (true, n)` when the `n`-th step reported completion, `some (false, n)`
when the `n`-th step failed with a non-retryable code, and `none` when the
oracle ran out of answers first. -/
def handshakeLoop : List Int → Option (Bool × Nat)
  | [] => none
  | r :: rs =>
    if r = 0 then some (true, 1)
    else if r ≠ sslWantRead ∧ r ≠ sslWantWrite then some (false, 1)
    else
      match handshakeLoop rs with
      | none => none
      | some (b, n) => some (b, n + 1)

/-- Handshake phase (source lines 350–372): run the handshake loop, then
query the record expansion (diagnostic only), then verify the peer. -/
def connectHandshake (net : Network) (tr : List Event) (O : ConnectOracle) :
    Option (IoTError × Network × List Event) :=
  match handshakeLoop O.handshake_rets with
  | none => none
  | some (ok, n) =>
    let tr := tr ++ List.replicate n .ssl_handshake
    if ok then some (connectVerify net (tr ++ [.ssl_get_record_expansion]) O)
    else some (.SSL_CONNECTION_ERROR, net, tr)

/-- Second half of the TLS-configuration phase (source lines 323–347):
initial record-read timeout, `mbedtls_ssl_setup`, hostname, bio. -/
def connectConfigBind (net : Network) (tr : List Event) (O : ConnectOracle) :
    Option (IoTError × Network × List Event) :=
  let net := { net with tlsDataParams :=
    { net.tlsDataParams with readTimeout := some net.tlsConnectParams.timeout_ms } }
  let tr := tr ++ [.ssl_conf_read_timeout net.tlsConnectParams.timeout_ms]
  let tr := tr ++ [.ssl_setup]
  if O.ssl_setup_ret ≠ 0 then some (.SSL_CONNECTION_ERROR, net, tr)
  else
    let tr := tr ++ [.ssl_set_hostname]
    if O.ssl_set_hostname_ret ≠ 0 then some (.SSL_CONNECTION_ERROR, net, tr)
    else connectHandshake net (tr ++ [.ssl_set_bio]) O

/-- TLS-configuration phase (source lines 296–321): defaults, verification
callback, authentication mode (required iff the session's
`ServerVerificationFlag` is still set, optional otherwise), RNG, trust
anchors (only when a root CA was supplied), own certificate/key (only when
a device certificate was supplied). -/
def connectConfig (net : Network) (tr : List Event) (O : ConnectOracle) :
    Option (IoTError × Network × List Event) :=
  let tr := tr ++ [.ssl_config_defaults]
  if O.ssl_config_defaults_ret ≠ 0 then some (.SSL_CONNECTION_ERROR, net, tr)
  else
    let mode := if net.tlsConnectParams.ServerVerificationFlag then Authmode.required
      else Authmode.optional
    let net := { net with tlsDataParams := { net.tlsDataParams with authmode := some mode } }
    let tr := tr ++ [.ssl_conf_verify, .ssl_conf_authmode mode, .ssl_conf_rng]
    let tr := if net.tlsConnectParams.pRootCALocation.isSome then tr ++ [.ssl_conf_ca_chain]
      else tr
    match net.tlsConnectParams.pDeviceCertLocation with
    | some _ =>
      let tr := tr ++ [.ssl_conf_own_cert]
      if O.ssl_conf_own_cert_ret ≠ 0 then some (.SSL_CONNECTION_ERROR, net, tr)
      else connectConfigBind net tr O
    | none => connectConfigBind net tr O

/-- Transport phase (source lines 272–294): `mbedtls_net_connect` with the
three-way error classification of the C `switch`, then
`mbedtls_net_set_block`. -/
def connectTransport (net : Network) (tr : List Event) (O : ConnectOracle) :
    Option (IoTError × Network × List Event) :=
  let tr := tr ++ [.net_connect]
  if O.net_connect_ret ≠ 0 then
    some ((if O.net_connect_ret = mbedtlsErrNetSocketFailed then
        IoTError.NETWORK_ERR_NET_SOCKET_FAILED
      else if O.net_connect_ret = mbedtlsErrNetUnknownHost then
        IoTError.NETWORK_ERR_NET_UNKNOWN_HOST
      else IoTError.NETWORK_ERR_NET_CONNECT_FAILED), net, tr)
  else
    let tr := tr ++ [.net_set_block]
    if O.net_set_block_ret ≠ 0 then some (.SSL_CONNECTION_ERROR, net, tr)
    else connectConfig net tr O

/-- Identity-loading phase (source lines 246–269): only when a device
certificate location was supplied; `rofs_readfile` failures and parse
failures are mapped to the artifact-specific errors.  Note the C checks
`< 0` for the reads and `!= 0` for the parses. -/
def connectIdentity (net : Network) (tr : List Event) (O : ConnectOracle) :
    Option (IoTError × Network × List Event) :=
  match net.tlsConnectParams.pDeviceCertLocation with
  | some _ =>
    let tr := tr ++ [.rofs_readfile_cert]
    if O.rofs_cert_ret < 0 then some (.NETWORK_X509_DEVICE_CRT_PARSE_ERROR, net, tr)
    else
      let tr := tr ++ [.x509_crt_parse_cli]
      if O.crt_parse_cli_ret ≠ 0 then some (.NETWORK_X509_DEVICE_CRT_PARSE_ERROR, net, tr)
      else
        let tr := tr ++ [.rofs_readfile_key]
        if O.rofs_key_ret < 0 then some (.NETWORK_PK_PRIVATE_KEY_PARSE_ERROR, net, tr)
        else
          let tr := tr ++ [.pk_parse_key]
          if O.pk_parse_key_ret ≠ 0 then some (.NETWORK_PK_PRIVATE_KEY_PARSE_ERROR, net, tr)
          else connectTransport net tr O
  | none => connectTransport net tr O

/-- Trust-loading phase (source lines 229–244): when a root CA location was
supplied, read and parse it (both failures map to
`NETWORK_X509_ROOT_CRT_PARSE_ERROR`); when absent, clear the session's
`ServerVerificationFlag` and continue. -/
def connectTrust (net : Network) (tr : List Event) (O : ConnectOracle) :
    Option (IoTError × Network × List Event) :=
  match net.tlsConnectParams.pRootCALocation with
  | some _ =>
    let tr := tr ++ [.rofs_readfile_root]
    if O.rofs_root_ret < 0 then some (.NETWORK_X509_ROOT_CRT_PARSE_ERROR, net, tr)
    else
      let tr := tr ++ [.x509_crt_parse_root]
      if O.crt_parse_root_ret < 0 then some (.NETWORK_X509_ROOT_CRT_PARSE_ERROR, net, tr)
      else connectIdentity net tr O
  | none =>
    connectIdentity
      { net with tlsConnectParams :=
        { net.tlsConnectParams with ServerVerificationFlag := false } } tr O

/-- Body of `iot_tls_connect` after the null check (source lines 188–401):
copy the caller's parameters when supplied, initialize all engine
sub-objects, register the entropy source and seed the DRBG (both mapped to
`NETWORK_MBEDTLS_ERR_CTR_DRBG_ENTROPY_SOURCE_FAILED` on failure), then run
the trust / identity / transport / configuration / handshake phases. -/
def connectBody (net0 : Network) (params : Option TLSConnectParams) (O : ConnectOracle) :
    Option (IoTError × Network × List Event) :=
  let net : Network := { net0 with tlsConnectParams := params.getD net0.tlsConnectParams }
  let tr : List Event := [.net_init, .ssl_init, .ssl_config_init, .ctr_drbg_init,
    .x509_crt_init_ca, .x509_crt_init_cli, .pk_init, .entropy_init, .entropy_add_source]
  if O.entropy_add_source_ret ≠ 0 then
    some (.NETWORK_MBEDTLS_ERR_CTR_DRBG_ENTROPY_SOURCE_FAILED, net, tr)
  else
    let tr := tr ++ [.ctr_drbg_seed]
    if O.ctr_drbg_seed_ret ≠ 0 then
      some (.NETWORK_MBEDTLS_ERR_CTR_DRBG_ENTROPY_SOURCE_FAILED, net, tr)
    else connectTrust net tr O

/-- Function `iot_tls_connect` (source lines 173–402): a null network pointer returns
`NULL_VALUE_ERROR` before any engine call (empty trace, no session state).
Otherwise runs `connectBody`; the result carries the final session state and
the trace of external calls. -/
def iot_tls_connect (pNetwork : Option Network) (params : Option TLSConnectParams)
    (O : ConnectOracle) : Option (IoTError × Option Network × List Event) :=
  match pNetwork with
  | none => some (.NULL_VALUE_ERROR, none, [])
  | some net =>
    match connectBody net params O with
    | none => none
    | some (e, n, tr) => some (e, some n, tr)

/-! ## `iot_tls_is_connected`, `iot_tls_disconnect`, `iot_tls_destroy` -/

/-- Function `iot_tls_is_connected` (source lines 167–171): unconditionally reports
`NETWORK_PHYSICAL_LAYER_CONNECTED`, ignoring the session entirely. -/
def iot_tls_is_connected (_pNetwork : Network) : IoTError :=
  .NETWORK_PHYSICAL_LAYER_CONNECTED

/-- The engine-owned resources of one session: the raw transport handle and
the seven mbedTLS context objects embedded in `TLSDataParams`. -/
inductive Resource where
  | server_fd
  | ssl
  | conf
  | ctr_drbg
  | cacert
  | clicert
  | pkey
  | entropy
  deriving DecidableEq, Repr

/-- The resource a trace event initializes (acquires), if any. -/
def Event.initResource : Event → Option Resource
  | .net_init => some .server_fd
  | .ssl_init => some .ssl
  | .ssl_config_init => some .conf
  | .ctr_drbg_init => some .ctr_drbg
  | .x509_crt_init_ca => some .cacert
  | .x509_crt_init_cli => some .clicert
  | .pk_init => some .pkey
  | .entropy_init => some .entropy
  | _ => none

/-- Function `iot_tls_destroy` (source lines 488–503): unconditionally frees, in
source order, the transport handle and all seven mbedTLS contexts,
regardless of the session's state, and returns `SUCCESS`.  The second
component lists the resources freed by this call. -/
def iot_tls_destroy (_pNetwork : Network) : IoTError × List Resource :=
  (.SUCCESS, [.server_fd, .clicert, .cacert, .pkey, .ssl, .conf, .ctr_drbg, .entropy])

def exOracle : ConnectOracle :=
  { entropy_add_source_ret := 0, ctr_drbg_seed_ret := 0, rofs_root_ret := 0,
    crt_parse_root_ret := 0, rofs_cert_ret := 0, crt_parse_cli_ret := 0, rofs_key_ret := 0,
    pk_parse_key_ret := 0, net_connect_ret := 0, net_set_block_ret := 0,
    ssl_config_defaults_ret := 0, ssl_conf_own_cert_ret := 0, ssl_setup_ret := 0,
    ssl_set_hostname_ret := 0, handshake_rets := [0], record_expansion_ret := 0,
    verify_result := 0 }

def exNetCex : Network :=
  { tlsConnectParams :=
    { DestinationPort := 8883, pDestinationURL := some "broker.example",
      pDeviceCertLocation := none, pDevicePrivateKeyLocation := none,
      pRootCALocation := some "ca.pem", timeout_ms := 5000, ServerVerificationFlag := false },
    tlsDataParams := { flags := 0, authmode := none, readTimeout := none } }


/-- Network `exNetCex` with peer verification requested by the caller. -/
def exNetV : Network :=
  { exNetCex with tlsConnectParams :=
    { exNetCex.tlsConnectParams with ServerVerificationFlag := true } }

/-- Network `exNetCex` with no root-CA location supplied. -/
def exNetN : Network :=
  { exNetCex with tlsConnectParams :=
    { exNetCex.tlsConnectParams with
        pRootCALocation := none
        ServerVerificationFlag := true } }

/-- The session state produced by connecting `exNetCex` (root CA present,
verification not requested) through `exOracle`. -/
def exStCex : Network :=
  { tlsConnectParams := exNetCex.tlsConnectParams,
    tlsDataParams := { flags := 0, authmode := some .optional, readTimeout := some 10 } }

/-- The trace of the `exNetCex`/`exOracle` run. -/
def exTrCex : List Event :=
  [.net_init, .ssl_init, .ssl_config_init, .ctr_drbg_init, .x509_crt_init_ca,
   .x509_crt_init_cli, .pk_init, .entropy_init, .entropy_add_source, .ctr_drbg_seed,
   .rofs_readfile_root, .x509_crt_parse_root, .net_connect, .net_set_block,
   .ssl_config_defaults, .ssl_conf_verify, .ssl_conf_authmode .optional, .ssl_conf_rng,
   .ssl_conf_ca_chain, .ssl_conf_read_timeout 5000, .ssl_setup, .ssl_set_hostname,
   .ssl_set_bio, .ssl_handshake, .ssl_get_record_expansion, .ssl_conf_read_timeout 10]

/-- The session state produced by connecting `exNetV` (root CA present,
verification requested) through `exOracle`. -/
def exStV : Network :=
  { tlsConnectParams := exNetV.tlsConnectParams,
    tlsDataParams := { flags := 0, authmode := some .required, readTimeout := some 10 } }

/-- The trace of the `exNetV`/`exOracle` run. -/
def exTrV : List Event :=
  [.net_init, .ssl_init, .ssl_config_init, .ctr_drbg_init, .x509_crt_init_ca,
   .x509_crt_init_cli, .pk_init, .entropy_init, .entropy_add_source, .ctr_drbg_seed,
   .rofs_readfile_root, .x509_crt_parse_root, .net_connect, .net_set_block,
   .ssl_config_defaults, .ssl_conf_verify, .ssl_conf_authmode .required, .ssl_conf_rng,
   .ssl_conf_ca_chain, .ssl_conf_read_timeout 5000, .ssl_setup, .ssl_set_hostname,
   .ssl_set_bio, .ssl_handshake, .ssl_get_record_expansion, .ssl_get_verify_result,
   .ssl_conf_read_timeout 10]

/-- The session state produced by connecting `exNetN` (no root CA) through
`exOracle`: the verification flag is cleared. -/
def exStN : Network :=
  { tlsConnectParams := { exNetN.tlsConnectParams with ServerVerificationFlag := false },
    tlsDataParams := { flags := 0, authmode := some .optional, readTimeout := some 10 } }

/-- The trace of the `exNetN`/`exOracle` run. -/
def exTrN : List Event :=
  [.net_init, .ssl_init, .ssl_config_init, .ctr_drbg_init, .x509_crt_init_ca,
   .x509_crt_init_cli, .pk_init, .entropy_init, .entropy_add_source, .ctr_drbg_seed,
   .net_connect, .net_set_block, .ssl_config_defaults, .ssl_conf_verify,
   .ssl_conf_authmode .optional, .ssl_conf_rng, .ssl_conf_read_timeout 5000, .ssl_setup,
   .ssl_set_hostname, .ssl_set_bio, .ssl_handshake, .ssl_get_record_expansion,
   .ssl_conf_read_timeout 10]


/-- Written from the spec's description of the write loop (§4.4 and §8 of
the specification), for comparison with the call log of `writeRun`: when the
engine accepts the payload in fragments `rs`, the `i`-th call hands the
engine the remaining unsent suffix — offset equal to the sum of the
previously accepted fragment sizes, request length `len - offset` — and the
cursor then advances by exactly the accepted fragment size. -/
def specWriteCalls (off len : Nat) : List Int → List (Nat × Nat × Int)
  | [] => []
  | r :: rs => (off, len - off, r) :: specWriteCalls (off + r.toNat) len rs

/-! ## Theorems -/

/-- **C8**: `iot_tls_connect` called with a null network object returns
`NULL_VALUE_ERROR` immediately: the trace of engine calls is empty (no
TLS-engine sub-object initialized) and no session state is produced. -/
theorem connect_null_network :
    ∀ (params : Option TLSConnectParams) (O : ConnectOracle),
      iot_tls_connect none params O = some (.NULL_VALUE_ERROR, none, []) := by
  intro params O
  rfl

/-- **C9**: `iot_tls_is_connected` returns
`NETWORK_PHYSICAL_LAYER_CONNECTED` for every session, and its result is
independent of the session passed in (it reads no session state). -/
theorem is_connected_constant :
    ∀ (n : Network), iot_tls_is_connected n = .NETWORK_PHYSICAL_LAYER_CONNECTED
      ∧ ∀ (m : Network), iot_tls_is_connected n = iot_tls_is_connected m := by
  intro n
  exact ⟨rfl, fun _ => rfl⟩

/-- **C10**: `iot_tls_write` with an empty payload returns `SUCCESS` with
`*written_len = 0` and an empty engine-call log, whatever the timer says —
including a deadline already elapsed (`q` arbitrary).  The outer loop
condition `written_so_far < len` fails before any timer or engine call; the
single consumed timer answer is the final `has_timer_expired` in the return
statement, whose value cannot matter because `written_so_far = len`. -/
theorem write_empty_payload :
    ∀ (fuel : Nat) (q : Bool) (timer : List Bool) (engine : List Int),
      writeRun (fuel + 1) (q :: timer) engine 0 = some (.SUCCESS, 0, []) := by
  intro fuel q timer engine
  simp [writeRun, writeOuter]

/-- **C3** (the code slip): a write of 2 bytes where the engine answers
would-block-on-read once and the deadline then elapses.  The inner retry
loop exits on timer expiry with `ret = MBEDTLS_ERR_SSL_WANT_READ = -0x6900`
still in hand, and the `for` increment `written_so_far += ret` adds that
error code to the 32-bit byte counter: the call returns `WriteTimeout`
carrying `2 ^ 32 - 0x6900 = 4294940416` instead of the 0 bytes actually
accepted. -/
theorem write_timeout_garbage_count :
    writeRun 2 [false, false, true, true] [sslWantRead] 2
      = some (.NETWORK_SSL_WRITE_TIMEOUT_ERROR, 4294940416, [(0, 2, sslWantRead)])
    ∧ iot_tls_write 2 [false, false, true, true] [sslWantRead] 2
      = some (.NETWORK_SSL_WRITE_TIMEOUT_ERROR, 4294940416) := by
  exact ⟨rfl, rfl⟩

/-- **C1** (counterexample): a read of 2 bytes where the engine delivers 1
byte and the deadline then elapses.  The status is `ReadTimeout` and the
ghost count records the 1 byte received, but the `*read_len` out-parameter
is `none` — the C code writes `*read_len` only on the full-buffer path
(line 463), so `ReadTimeout` does **not** carry the partial count. -/
theorem read_timeout_drops_count_cex :
    readRun [true] [1] 2 = some (.NETWORK_SSL_READ_TIMEOUT_ERROR, none, 1)
    ∧ iot_tls_read [true] [1] 2 = some (.NETWORK_SSL_READ_TIMEOUT_ERROR, none) := by
  exact ⟨rfl, rfl⟩

/-- **C2** (counterexample): a read where the engine's first answer is `0`
and the deadline has *not* elapsed.  The claim says a zero return is
retried until the deadline; the code instead returns
`NETWORK_SSL_READ_ERROR` immediately (line 452 treats `ret == 0` as
fatal). -/
theorem read_zero_fatal_cex :
    readRun [false, false] [0] 1 = some (.NETWORK_SSL_READ_ERROR, none, 0)
    ∧ iot_tls_read [false, false] [0] 1 = some (.NETWORK_SSL_READ_ERROR, none) := by
  exact ⟨rfl, rfl⟩

/-- Case analysis of the read loop: every terminating run either aborts with
`NETWORK_SSL_READ_ERROR` (out-parameter unwritten), or fills the buffer
(`SUCCESS`, out-parameter written with `rx + len`), or stops on the deadline
with nothing received (`NOTHING_TO_READ`, possible only when `rx = 0`), or
stops on the deadline with a proper partial count. -/
theorem readLoopRun_cases :
    ∀ (engine : List Int) (timer : List Bool) (len rx : Nat)
      (err : IoTError) (out : Option Nat) (k : Nat),
      readLoopRun timer engine len rx = some (err, out, k) →
      (err = .NETWORK_SSL_READ_ERROR ∧ out = none)
      ∨ (err = .SUCCESS ∧ out = some k ∧ k = rx + len)
      ∨ (err = .NETWORK_SSL_NOTHING_TO_READ ∧ out = none ∧ k = 0 ∧ rx = 0 ∧ 0 < len)
      ∨ (err = .NETWORK_SSL_READ_TIMEOUT_ERROR ∧ out = none ∧ 0 < k ∧ k < rx + len ∧ rx ≤ k) := by
  intro engine
  induction engine with
  | nil =>
    intro timer len rx err out k h
    match len with
    | 0 =>
      rw [readLoopRun] at h
      rw [show readFinish 0 rx = (.SUCCESS, some rx, rx) from rfl] at h
      simp only [Option.some_inj, Prod.mk.injEq] at h
      obtain ⟨he, ho, hk⟩ := h
      right; left
      simp [← he, ← ho, ← hk]
    | n + 1 =>
      rw [readLoopRun] at h
      simp at h
  | cons r engine' ih =>
    intro timer len rx err out k h
    match len with
    | 0 =>
      rw [readLoopRun] at h
      rw [show readFinish 0 rx = (.SUCCESS, some rx, rx) from rfl] at h
      simp only [Option.some_inj, Prod.mk.injEq] at h
      obtain ⟨he, ho, hk⟩ := h
      right; left
      simp [← he, ← ho, ← hk]
    | n + 1 =>
      rcases timer with - | ⟨q, timer'⟩
      · -- timer oracle exhausted: only the fatal branch can produce a result
        rw [readLoopRun] at h
        split at h
        · split at h <;> simp at h
        · split at h
          · simp only [Option.some_inj, Prod.mk.injEq] at h
            obtain ⟨he, ho, hk⟩ := h
            exact Or.inl ⟨he.symm, ho.symm⟩
          · simp at h
      · rw [readLoopRun] at h
        split at h
        · rename_i hrpos
          split at h
          · rename_i hrle
            split at h
            · -- timer expired right after the positive read
              simp only [readFinish, Option.some_inj] at h
              split at h
              · rename_i hz
                simp only [Prod.mk.injEq] at h
                obtain ⟨he, ho, hk⟩ := h
                subst hk
                right; left
                exact ⟨he.symm, ho.symm, by omega⟩
              · split at h
                · rename_i hz hrx0
                  omega
                · simp only [Prod.mk.injEq] at h
                  obtain ⟨he, ho, hk⟩ := h
                  right; right; right
                  refine ⟨he.symm, ho.symm, ?_, ?_, ?_⟩ <;> omega
            · -- timer not expired: continue reading
              rcases ih timer' (n + 1 - r.toNat) (rx + r.toNat) err out k h with
                hc | hc | hc | hc
              · exact Or.inl hc
              · right; left
                obtain ⟨h1, h2, h3⟩ := hc
                refine ⟨h1, h2, ?_⟩
                omega
              · obtain ⟨-, -, -, h4, -⟩ := hc
                omega
              · right; right; right
                obtain ⟨h1, h2, h3, h4, h5⟩ := hc
                refine ⟨h1, h2, h3, ?_, ?_⟩ <;> omega
          · simp at h
        · split at h
          · -- fatal: zero return or non-retryable negative result
            simp only [Option.some_inj, Prod.mk.injEq] at h
            obtain ⟨he, ho, hk⟩ := h
            exact Or.inl ⟨he.symm, ho.symm⟩
          · split at h
            · -- timer expired after a retryable result
              simp only [readFinish, Option.some_inj] at h
              split at h
              · omega
              · split at h
                · rename_i hz
                  simp only [Prod.mk.injEq] at h
                  obtain ⟨he, ho, hk⟩ := h
                  right; right; left
                  refine ⟨he.symm, ho.symm, ?_, hz, ?_⟩ <;> omega
                · rename_i hz
                  simp only [Prod.mk.injEq] at h
                  obtain ⟨he, ho, hk⟩ := h
                  right; right; right
                  refine ⟨he.symm, ho.symm, ?_, ?_, ?_⟩ <;> omega
            · exact ih timer' (n + 1) rx err out k h

/-- **C1** (amended): for every terminating read of a non-empty buffer that
does not abort with `ReadError`, the outcome is three-way — `NothingToRead`
when no bytes were received, `ReadTimeout` when `0 < k < L` bytes were
received, and `Success` exactly when all `L` bytes were received — but the
partial count is carried only on `Success` (`bytes_read = L`); on
`NothingToRead` and `ReadTimeout` the `*read_len` out-parameter is left
unwritten. -/
theorem read_three_way_outcome :
    ∀ (timer : List Bool) (engine : List Int) (L : Nat)
      (err : IoTError) (out : Option Nat) (k : Nat),
      0 < L → readRun timer engine L = some (err, out, k) →
      err ≠ .NETWORK_SSL_READ_ERROR →
      (err = .NETWORK_SSL_NOTHING_TO_READ ∧ out = none ∧ k = 0)
      ∨ (err = .NETWORK_SSL_READ_TIMEOUT_ERROR ∧ out = none ∧ 0 < k ∧ k < L)
      ∨ (err = .SUCCESS ∧ out = some L ∧ k = L) := by
  intro timer engine L err out k hL h herr
  rcases readLoopRun_cases engine timer L 0 err out k h with hc | hc | hc | hc
  · exact absurd hc.1 herr
  · right; right
    obtain ⟨h1, h2, h3⟩ := hc
    have hk : k = L := by omega
    subst hk
    exact ⟨h1, h2, rfl⟩
  · left
    obtain ⟨h1, h2, h3, -, -⟩ := hc
    exact ⟨h1, h2, h3⟩
  · right; left
    obtain ⟨h1, h2, h3, h4, -⟩ := hc
    exact ⟨h1, h2, h3, by omega⟩

/-- Witness for `read_three_way_outcome`: a concrete full read (2 bytes
delivered into a 2-byte buffer, deadline expiring right after). -/
theorem read_three_way_outcome_witness :
    readRun [true] [2] 2 = some (.SUCCESS, some 2, 2)
    ∧ ((IoTError.SUCCESS = .NETWORK_SSL_NOTHING_TO_READ ∧ (some 2 : Option Nat) = none ∧ 2 = 0)
      ∨ (IoTError.SUCCESS = .NETWORK_SSL_READ_TIMEOUT_ERROR ∧ (some 2 : Option Nat) = none
          ∧ 0 < 2 ∧ 2 < 2)
      ∨ (IoTError.SUCCESS = .SUCCESS ∧ (some 2 : Option Nat) = some 2 ∧ 2 = 2)) :=
  ⟨rfl, read_three_way_outcome [true] [2] 2 .SUCCESS (some 2) 2 (by decide) rfl (by decide)⟩

/-- **C2** (amended): in the read loop, a zero return from
`mbedtls_ssl_read` **is** fatal — it aborts immediately with `ReadError`
without writing `*read_len`, exactly like any negative result other than
want-read, want-write, or timeout; only those three would-block/timeout
results make the loop re-check the deadline and retry (or stop once it has
elapsed). -/
theorem read_retry_classification :
    ∀ (r : Int) (n rx : Nat) (timer : List Bool) (engine : List Int) (q : Bool),
      ((r = 0 ∨ (r < 0 ∧ r ≠ sslWantRead ∧ r ≠ sslWantWrite ∧ r ≠ sslTimeout)) →
        readLoopRun timer (r :: engine) (n + 1) rx = some (.NETWORK_SSL_READ_ERROR, none, rx))
      ∧ ((r = sslWantRead ∨ r = sslWantWrite ∨ r = sslTimeout) →
        readLoopRun (q :: timer) (r :: engine) (n + 1) rx =
          if q then some (readFinish (n + 1) rx) else readLoopRun timer engine (n + 1) rx) := by
  intro r n rx timer engine q
  constructor
  · intro hr
    rcases timer with - | ⟨p, timer'⟩ <;>
      · rw [readLoopRun]
        rcases hr with hr | ⟨hr1, hr2⟩
        · subst hr
          simp
        · rw [if_neg (by omega), if_pos (Or.inr hr2)]
  · intro hr
    have hneg : ¬0 < r := by
      rcases hr with hr | hr | hr <;> subst hr <;> decide
    have hnz : ¬(r = 0 ∨ (r ≠ sslWantRead ∧ r ≠ sslWantWrite ∧ r ≠ sslTimeout)) := by
      rcases hr with hr | hr | hr <;> subst hr <;> decide
    rw [readLoopRun, if_neg hneg, if_neg hnz]

/-- Witness for `read_retry_classification`: a concrete zero return with the
deadline not yet elapsed still aborts with `ReadError`. -/
theorem read_retry_classification_witness :
    readLoopRun [false, true] [0] 3 1 = some (.NETWORK_SSL_READ_ERROR, none, 1) :=
  (read_retry_classification 0 2 1 [false, true] [] true).1 (Or.inl rfl)

/-- One iteration of the outer write loop on a positive in-contract
fragment with the timer silent: the loop condition and the first inner
check each consume one `false` timer answer, the engine accepts `r` bytes
of the `len - off` requested, and the cursor advances to
`(off + r) mod 2 ^ 32` for the rest of the run. -/
theorem writeOuter_step :
    ∀ (fuel : Nat) (ts : List Bool) (r : Int) (engine' : List Int) (len off : Nat)
      (ret0 : Int) (w : Nat) (ef2 : Bool) (t3 : List Bool) (cs2 : List (Nat × Nat × Int)),
      off < len → 0 < r → r.toNat ≤ len - off →
      writeOuter fuel ts engine' len (((off : Int) + r) % (sizeTMod : Int)).toNat r
        = some (w, ef2, t3, cs2) →
      writeOuter (fuel + 1) (false :: false :: ts) (r :: engine') len off ret0
        = some (w, ef2, t3, (off, len - off, r) :: cs2) := by
  intro fuel ts r engine' len off ret0 w ef2 t3 cs2 hoff hr hle hrec
  rw [writeOuter, if_pos hoff]
  rw [show writeInner (false :: ts) (r :: engine') off len ret0
      = some (r, false, ts, engine', [(off, len - off, r)]) by
    rw [writeInner, if_pos hr, if_pos hle]]
  simp [hrec]

/-- The write loop on an all-positive fragment schedule: when the timer
never expires and the engine accepts `rs` (all positive fragments summing
to `len - off`), the call log is exactly `specWriteCalls off len rs` and
the cursor ends at `len` with no error. -/
theorem writeOuter_fragments :
    ∀ (rs : List Int) (off len : Nat) (ret0 : Int),
      (∀ r ∈ rs, 0 < r) → off + (rs.map Int.toNat).sum = len → len < sizeTMod →
      writeOuter (rs.length + 1) (List.replicate (2 * rs.length + 1) false) rs len off ret0
        = some (len, false, [false], specWriteCalls off len rs) := by
  intro rs
  induction rs with
  | nil =>
    intro off len ret0 hpos hsum hlen
    have hoff : off = len := by simpa using hsum
    subst hoff
    show writeOuter 1 [false] [] off off ret0 = some (off, false, [false], specWriteCalls off off [])
    rw [writeOuter]
    simp [specWriteCalls]
  | cons r rs' ih =>
    intro off len ret0 hpos hsum hlen
    have hr : 0 < r := hpos r (by simp)
    have hsum' : (off + r.toNat) + (rs'.map Int.toNat).sum = len := by
      simp only [List.map_cons, List.sum_cons] at hsum
      omega
    have hoff : off < len := by omega
    have hle : r.toNat ≤ len - off := by omega
    have hcast : (((off : Int) + r) % (sizeTMod : Int)).toNat = off + r.toNat := by
      have h1 : (off : Int) + r = ((off + r.toNat : Nat) : Int) := by omega
      have h2 : ((off + r.toNat : Nat) : Int) < (sizeTMod : Int) := by
        have : off + r.toNat < sizeTMod := by omega
        exact_mod_cast this
      rw [h1, Int.emod_eq_of_lt (by positivity) h2]
      exact Int.toNat_ofNat _
    have hrec : writeOuter (rs'.length + 1) (List.replicate (2 * rs'.length + 1) false) rs' len
        (((off : Int) + r) % (sizeTMod : Int)).toNat r
        = some (len, false, [false], specWriteCalls (off + r.toNat) len rs') := by
      rw [hcast]
      exact ih (off + r.toNat) len r (fun x hx => hpos x (by simp [hx])) hsum' hlen
    have hrep : List.replicate (2 * (r :: rs').length + 1) false
        = false :: false :: List.replicate (2 * rs'.length + 1) false := by
      have : 2 * (r :: rs').length + 1 = ((2 * rs'.length + 1) + 1) + 1 := by
        simp [List.length_cons]
        omega
      rw [this, List.replicate_succ, List.replicate_succ]
    rw [show (r :: rs').length + 1 = (rs'.length + 1) + 1 by simp, hrep]
    rw [writeOuter_step (rs'.length + 1) (List.replicate (2 * rs'.length + 1) false) r rs'
      len off ret0 len false [false] (specWriteCalls (off + r.toNat) len rs') hoff hr hle hrec]
    rw [specWriteCalls]

/-- Concatenating, in order, the accepted fragments (the first `rᵢ` bytes of
the suffix handed to the engine at each call of `specWriteCalls off len rs`)
recovers the unsent suffix of the payload. -/
theorem specWriteCalls_join :
    ∀ (rs : List Int) (off len : Nat) (data : List Nat),
      (∀ r ∈ rs, 0 < r) → off + (rs.map Int.toNat).sum = len → data.length = len →
      ((specWriteCalls off len rs).map (fun c => ((data.drop c.1).take c.2.2.toNat))).join
        = data.drop off := by
  intro rs
  induction rs with
  | nil =>
    intro off len data hpos hsum hdata
    have hoff : off = len := by simpa using hsum
    subst hoff
    rw [specWriteCalls, ← hdata]
    simp [List.drop_length]
  | cons r rs' ih =>
    intro off len data hpos hsum hdata
    have hsum' : (off + r.toNat) + (rs'.map Int.toNat).sum = len := by
      simp only [List.map_cons, List.sum_cons] at hsum
      omega
    rw [specWriteCalls]
    have hih := ih (off + r.toNat) len data (fun x hx => hpos x (by simp [hx])) hsum' hdata
    simp only [List.map_cons, List.join_cons, hih]
    rw [← List.drop_drop]
    exact List.take_append_drop _ _

/-- **C4**: a write of `len` bytes that the engine accepts in positive
fragments `rs` (summing to `len`) with the deadline never elapsing returns
`(len, SUCCESS)`; each engine call is issued on the remaining unsent suffix
with the cursor advanced by exactly the previously accepted fragment sizes
(the call log equals `specWriteCalls 0 len rs`), and the in-order
concatenation of the accepted fragments equals the original payload. -/
theorem write_fragments_roundtrip :
    ∀ (rs : List Int) (len : Nat) (data : List Nat),
      (∀ r ∈ rs, 0 < r) → (rs.map Int.toNat).sum = len → len < sizeTMod →
      data.length = len →
      writeRun (rs.length + 1) (List.replicate (2 * rs.length + 1) false) rs len
        = some (.SUCCESS, len, specWriteCalls 0 len rs)
      ∧ ((specWriteCalls 0 len rs).map (fun c => ((data.drop c.1).take c.2.2.toNat))).join
        = data := by
  intro rs len data hpos hsum hlen hdata
  constructor
  · rw [writeRun, writeOuter_fragments rs 0 len 0 hpos (by simpa using hsum) hlen]
    simp
  · have h := specWriteCalls_join rs 0 len data hpos (by simpa using hsum) hdata
    simpa using h

/-- Witness for `write_fragments_roundtrip`: a 12-byte payload accepted as a
10-byte fragment followed by the remaining 2 bytes. -/
theorem write_fragments_roundtrip_witness :
    writeRun 3 (List.replicate 5 false) [10, 2] 12
      = some (.SUCCESS, 12, specWriteCalls 0 12 [10, 2])
    ∧ ((specWriteCalls 0 12 [10, 2]).map
        (fun c => (((List.range 12).drop c.1).take c.2.2.toNat))).join = List.range 12 :=
  write_fragments_roundtrip [10, 2] 12 (List.range 12) (by decide) (by decide) (by decide)
    (by simp)

/-- Facts about the peer-verification step and epilogue: connection
parameters and authentication mode are untouched, the step never produces a
root-certificate error, the appended events are the optional verification
check and the final read-timeout restore, and the verification check runs
exactly when the session's flag is still set. -/
theorem connectVerify_facts :
    ∀ (net : Network) (tr : List Event) (O : ConnectOracle) (e : IoTError) (n : Network)
      (tr' : List Event),
      connectVerify net tr O = (e, n, tr') →
      n.tlsConnectParams = net.tlsConnectParams
      ∧ (e = .SUCCESS → n.tlsDataParams.authmode = net.tlsDataParams.authmode)
      ∧ e ≠ .NETWORK_X509_ROOT_CRT_PARSE_ERROR
      ∧ (∀ x, x ∈ tr' → x ∈ tr ∨ (x ≠ .rofs_readfile_root ∧ x ≠ .x509_crt_parse_root))
      ∧ (.ssl_get_verify_result ∈ tr' → .ssl_get_verify_result ∈ tr
          ∨ net.tlsConnectParams.ServerVerificationFlag = true)
      ∧ (e = .SUCCESS → net.tlsConnectParams.ServerVerificationFlag = true →
          .ssl_get_verify_result ∈ tr') := by
  intro net tr O e n tr' h
  simp only [connectVerify, connectFinish] at h
  split at h
  · rename_i hflag
    split at h
    · simp only [Prod.mk.injEq] at h
      obtain ⟨rfl, rfl, rfl⟩ := h
      refine ⟨rfl, by simp, by simp, ?_, ?_, by simp⟩
      · intro x hx
        rcases List.mem_append.mp hx with hx | hx
        · rcases List.mem_append.mp hx with hx | hx
          · exact Or.inl hx
          · refine Or.inr ⟨?_, ?_⟩ <;> (rintro rfl; simp_all)
        · refine Or.inr ⟨?_, ?_⟩ <;> (rintro rfl; simp_all)
      · intro _
        exact Or.inr hflag
    · simp only [Prod.mk.injEq] at h
      obtain ⟨rfl, rfl, rfl⟩ := h
      refine ⟨rfl, by simp, by simp, ?_, ?_, ?_⟩
      · intro x hx
        rcases List.mem_append.mp hx with hx | hx
        · rcases List.mem_append.mp hx with hx | hx
          · exact Or.inl hx
          · refine Or.inr ⟨?_, ?_⟩ <;> (rintro rfl; simp_all)
        · refine Or.inr ⟨?_, ?_⟩ <;> (rintro rfl; simp_all)
      · intro _
        exact Or.inr hflag
      · intro _ _
        simp [List.mem_append]
  · rename_i hflag
    simp only [Prod.mk.injEq] at h
    obtain ⟨rfl, rfl, rfl⟩ := h
    refine ⟨rfl, by simp, by simp, ?_, ?_, ?_⟩
    · intro x hx
      rcases List.mem_append.mp hx with hx | hx
      · exact Or.inl hx
      · refine Or.inr ⟨?_, ?_⟩ <;> (rintro rfl; simp_all)
    · intro hx
      rcases List.mem_append.mp hx with hx | hx
      · exact Or.inl hx
      · simp at hx
    · intro _ hh
      simp only [hflag] at hh
      exact absurd hh (by simp)

/-- The handshake-phase facts: the handshake loop only appends
`ssl_handshake` steps (plus the record-expansion query on completion)
before handing over to the verification step. -/
theorem connectHandshake_facts :
    ∀ (net : Network) (tr : List Event) (O : ConnectOracle) (e : IoTError) (n : Network)
      (tr' : List Event),
      connectHandshake net tr O = some (e, n, tr') →
      n.tlsConnectParams = net.tlsConnectParams
      ∧ (e = .SUCCESS → n.tlsDataParams.authmode = net.tlsDataParams.authmode)
      ∧ e ≠ .NETWORK_X509_ROOT_CRT_PARSE_ERROR
      ∧ (∀ x, x ∈ tr' → x ∈ tr ∨ (x ≠ .rofs_readfile_root ∧ x ≠ .x509_crt_parse_root))
      ∧ (.ssl_get_verify_result ∈ tr' → .ssl_get_verify_result ∈ tr
          ∨ net.tlsConnectParams.ServerVerificationFlag = true)
      ∧ (e = .SUCCESS → net.tlsConnectParams.ServerVerificationFlag = true →
          .ssl_get_verify_result ∈ tr') := by
  intro net tr O e n tr' h
  simp only [connectHandshake] at h
  split at h
  · exact absurd h (by simp)
  · rename_i ok k hh
    split at h
    · have hX : connectVerify net
          (tr ++ List.replicate k .ssl_handshake ++ [.ssl_get_record_expansion]) O
          = (e, n, tr') := Option.some.inj h
      obtain ⟨h1, h2, h3, h4, h5, h6⟩ := connectVerify_facts _ _ _ _ _ _ hX
      refine ⟨h1, h2, h3, ?_, ?_, ?_⟩
      · intro x hx
        rcases h4 x hx with hx2 | hx2
        · rcases List.mem_append.mp hx2 with hx3 | hx3
          · rcases List.mem_append.mp hx3 with hx4 | hx4
            · exact Or.inl hx4
            · refine Or.inr ⟨?_, ?_⟩ <;> (rintro rfl; simp_all [List.mem_replicate])
          · refine Or.inr ⟨?_, ?_⟩ <;> (rintro rfl; simp_all)
        · exact Or.inr hx2
      · intro hv
        rcases h5 hv with hv2 | hv2
        · rcases List.mem_append.mp hv2 with hv3 | hv3
          · rcases List.mem_append.mp hv3 with hv4 | hv4
            · exact Or.inl hv4
            · simp [List.mem_replicate] at hv4
          · simp at hv3
        · exact Or.inr hv2
      · exact h6
    · have hX := Option.some.inj h
      simp only [Prod.mk.injEq] at hX
      obtain ⟨rfl, rfl, rfl⟩ := hX
      refine ⟨rfl, by simp, by simp, ?_, ?_, by simp⟩
      · intro x hx
        rcases List.mem_append.mp hx with hx | hx
        · exact Or.inl hx
        · refine Or.inr ⟨?_, ?_⟩ <;> (rintro rfl; simp_all [List.mem_replicate])
      · intro hv
        rcases List.mem_append.mp hv with hv | hv
        · exact Or.inl hv
        · simp [List.mem_replicate] at hv

/-- Facts about the second half of the configuration phase (read timeout,
`ssl_setup`, hostname, bio) and everything after it. -/
theorem connectConfigBind_facts :
    ∀ (net : Network) (tr : List Event) (O : ConnectOracle) (e : IoTError) (n : Network)
      (tr' : List Event),
      connectConfigBind net tr O = some (e, n, tr') →
      n.tlsConnectParams = net.tlsConnectParams
      ∧ (e = .SUCCESS → n.tlsDataParams.authmode = net.tlsDataParams.authmode)
      ∧ e ≠ .NETWORK_X509_ROOT_CRT_PARSE_ERROR
      ∧ (∀ x, x ∈ tr' → x ∈ tr ∨ (x ≠ .rofs_readfile_root ∧ x ≠ .x509_crt_parse_root))
      ∧ (.ssl_get_verify_result ∈ tr' → .ssl_get_verify_result ∈ tr
          ∨ net.tlsConnectParams.ServerVerificationFlag = true)
      ∧ (e = .SUCCESS → net.tlsConnectParams.ServerVerificationFlag = true →
          .ssl_get_verify_result ∈ tr') := by
  intro net tr O e n tr' h
  simp only [connectConfigBind] at h
  split at h
  · have hX := Option.some.inj h
    simp only [Prod.mk.injEq] at hX
    obtain ⟨rfl, rfl, rfl⟩ := hX
    refine ⟨by simp, by simp, by simp, ?_, ?_, by simp⟩
    · intro x hx
      simp only [List.append_assoc, List.mem_append, List.mem_singleton] at hx
      rcases hx with hx | hx
      · exact Or.inl hx
      · refine Or.inr ⟨?_, ?_⟩ <;> (rintro rfl; simp_all)
    · intro hv
      simp only [List.append_assoc, List.mem_append, List.mem_singleton] at hv
      rcases hv with hv | hv
      · exact Or.inl hv
      · exact absurd hv (by simp)
  · split at h
    · have hX := Option.some.inj h
      simp only [Prod.mk.injEq] at hX
      obtain ⟨rfl, rfl, rfl⟩ := hX
      refine ⟨by simp, by simp, by simp, ?_, ?_, by simp⟩
      · intro x hx
        simp only [List.append_assoc, List.mem_append, List.mem_singleton] at hx
        rcases hx with hx | hx
        · exact Or.inl hx
        · refine Or.inr ⟨?_, ?_⟩ <;> (rintro rfl; simp_all)
      · intro hv
        simp only [List.append_assoc, List.mem_append, List.mem_singleton] at hv
        rcases hv with hv | hv
        · exact Or.inl hv
        · exact absurd hv (by simp)
    · obtain ⟨h1, h2, h3, h4, h5, h6⟩ := connectHandshake_facts _ _ _ _ _ _ h
      refine ⟨by rw [h1], ?_, h3, ?_, ?_, ?_⟩
      · intro hs
        rw [h2 hs]
      · intro x hx
        rcases h4 x hx with hx2 | hx2
        · simp only [List.append_assoc, List.mem_append, List.mem_singleton] at hx2
          rcases hx2 with hx2 | hx2
          · exact Or.inl hx2
          · refine Or.inr ⟨?_, ?_⟩ <;> (rintro rfl; simp_all)
        · exact Or.inr hx2
      · intro hv
        rcases h5 hv with hv2 | hv2
        · simp only [List.append_assoc, List.mem_append, List.mem_singleton] at hv2
          rcases hv2 with hv2 | hv2
          · exact Or.inl hv2
          · exact absurd hv2 (by simp)
        · exact Or.inr hv2
      · exact h6

/-- Facts about the configuration phase and everything after it: on success
the session's authentication mode is `required` exactly when the session's
`ServerVerificationFlag` was still set when `mbedtls_ssl_conf_authmode` ran.
-/
theorem connectConfig_facts :
    ∀ (net : Network) (tr : List Event) (O : ConnectOracle) (e : IoTError) (n : Network)
      (tr' : List Event),
      connectConfig net tr O = some (e, n, tr') →
      n.tlsConnectParams = net.tlsConnectParams
      ∧ (e = .SUCCESS → n.tlsDataParams.authmode
          = some (if net.tlsConnectParams.ServerVerificationFlag then Authmode.required
              else Authmode.optional))
      ∧ e ≠ .NETWORK_X509_ROOT_CRT_PARSE_ERROR
      ∧ (∀ x, x ∈ tr' → x ∈ tr ∨ (x ≠ .rofs_readfile_root ∧ x ≠ .x509_crt_parse_root))
      ∧ (.ssl_get_verify_result ∈ tr' → .ssl_get_verify_result ∈ tr
          ∨ net.tlsConnectParams.ServerVerificationFlag = true)
      ∧ (e = .SUCCESS → net.tlsConnectParams.ServerVerificationFlag = true →
          .ssl_get_verify_result ∈ tr') := by
  intro net tr O e n tr' h
  simp only [connectConfig] at h
  repeat' split at h
  all_goals first
    | (have hX := Option.some.inj h
       simp only [Prod.mk.injEq] at hX
       obtain ⟨rfl, rfl, rfl⟩ := hX
       refine ⟨by simp, by simp, by simp, ?_, ?_, by simp⟩
       · intro x hx
         simp only [List.append_assoc, List.mem_append, List.mem_singleton,
           List.mem_cons, List.not_mem_nil, or_false] at hx
         rcases hx with hx | hx
         · exact Or.inl hx
         · refine Or.inr ⟨?_, ?_⟩ <;> (rintro rfl; simp_all)
       · intro hv
         simp only [List.append_assoc, List.mem_append, List.mem_singleton,
           List.mem_cons, List.not_mem_nil, or_false] at hv
         rcases hv with hv | hv
         · exact Or.inl hv
         · exact absurd hv (by simp))
    | (obtain ⟨h1, h2, h3, h4, h5, h6⟩ := connectConfigBind_facts _ _ _ _ _ _ h
       refine ⟨by rw [h1], ?_, h3, ?_, ?_, h6⟩
       · intro hs
         rw [h2 hs]
         simp_all
       · intro x hx
         rcases h4 x hx with hx2 | hx2
         · simp only [List.append_assoc, List.mem_append, List.mem_singleton,
             List.mem_cons, List.not_mem_nil, or_false] at hx2
           rcases hx2 with hx2 | hx2
           · exact Or.inl hx2
           · refine Or.inr ⟨?_, ?_⟩ <;> (rintro rfl; simp_all)
         · exact Or.inr hx2
       · intro hv
         rcases h5 hv with hv2 | hv2
         · simp only [List.append_assoc, List.mem_append, List.mem_singleton,
             List.mem_cons, List.not_mem_nil, or_false] at hv2
           rcases hv2 with hv2 | hv2
           · exact Or.inl hv2
           · exact absurd hv2 (by simp)
         · exact Or.inr hv2)

/-- Facts about the transport phase (`mbedtls_net_connect`,
`mbedtls_net_set_block`) and everything after it. -/
theorem connectTransport_facts :
    ∀ (net : Network) (tr : List Event) (O : ConnectOracle) (e : IoTError) (n : Network)
      (tr' : List Event),
      connectTransport net tr O = some (e, n, tr') →
      n.tlsConnectParams = net.tlsConnectParams
      ∧ (e = .SUCCESS → n.tlsDataParams.authmode
          = some (if net.tlsConnectParams.ServerVerificationFlag then Authmode.required
              else Authmode.optional))
      ∧ e ≠ .NETWORK_X509_ROOT_CRT_PARSE_ERROR
      ∧ (∀ x, x ∈ tr' → x ∈ tr ∨ (x ≠ .rofs_readfile_root ∧ x ≠ .x509_crt_parse_root))
      ∧ (.ssl_get_verify_result ∈ tr' → .ssl_get_verify_result ∈ tr
          ∨ net.tlsConnectParams.ServerVerificationFlag = true)
      ∧ (e = .SUCCESS → net.tlsConnectParams.ServerVerificationFlag = true →
          .ssl_get_verify_result ∈ tr') := by
  intro net tr O e n tr' h
  simp only [connectTransport] at h
  repeat' split at h
  all_goals first
    | (have hX := Option.some.inj h
       simp only [Prod.mk.injEq] at hX
       obtain ⟨rfl, rfl, rfl⟩ := hX
       refine ⟨by simp, by simp, by simp, ?_, ?_, by simp⟩
       · intro x hx
         simp only [List.append_assoc, List.mem_append, List.mem_singleton,
           List.mem_cons, List.not_mem_nil, or_false] at hx
         rcases hx with hx | hx
         · exact Or.inl hx
         · refine Or.inr ⟨?_, ?_⟩ <;> (rintro rfl; simp_all)
       · intro hv
         simp only [List.append_assoc, List.mem_append, List.mem_singleton,
           List.mem_cons, List.not_mem_nil, or_false] at hv
         rcases hv with hv | hv
         · exact Or.inl hv
         · exact absurd hv (by simp))
    | (obtain ⟨h1, h2, h3, h4, h5, h6⟩ := connectConfig_facts _ _ _ _ _ _ h
       refine ⟨by rw [h1], h2, h3, ?_, ?_, h6⟩
       · intro x hx
         rcases h4 x hx with hx2 | hx2
         · simp only [List.append_assoc, List.mem_append, List.mem_singleton,
             List.mem_cons, List.not_mem_nil, or_false] at hx2
           rcases hx2 with hx2 | hx2
           · exact Or.inl hx2
           · refine Or.inr ⟨?_, ?_⟩ <;> (rintro rfl; simp_all)
         · exact Or.inr hx2
       · intro hv
         rcases h5 hv with hv2 | hv2
         · simp only [List.append_assoc, List.mem_append, List.mem_singleton,
             List.mem_cons, List.not_mem_nil, or_false] at hv2
           rcases hv2 with hv2 | hv2
           · exact Or.inl hv2
           · exact absurd hv2 (by simp)
         · exact Or.inr hv2)

/-- Facts about the identity-loading phase (device certificate and private
key) and everything after it. -/
theorem connectIdentity_facts :
    ∀ (net : Network) (tr : List Event) (O : ConnectOracle) (e : IoTError) (n : Network)
      (tr' : List Event),
      connectIdentity net tr O = some (e, n, tr') →
      n.tlsConnectParams = net.tlsConnectParams
      ∧ (e = .SUCCESS → n.tlsDataParams.authmode
          = some (if net.tlsConnectParams.ServerVerificationFlag then Authmode.required
              else Authmode.optional))
      ∧ e ≠ .NETWORK_X509_ROOT_CRT_PARSE_ERROR
      ∧ (∀ x, x ∈ tr' → x ∈ tr ∨ (x ≠ .rofs_readfile_root ∧ x ≠ .x509_crt_parse_root))
      ∧ (.ssl_get_verify_result ∈ tr' → .ssl_get_verify_result ∈ tr
          ∨ net.tlsConnectParams.ServerVerificationFlag = true)
      ∧ (e = .SUCCESS → net.tlsConnectParams.ServerVerificationFlag = true →
          .ssl_get_verify_result ∈ tr') := by
  intro net tr O e n tr' h
  simp only [connectIdentity] at h
  repeat' split at h
  all_goals first
    | exact connectTransport_facts _ _ _ _ _ _ h
    | (have hX := Option.some.inj h
       simp only [Prod.mk.injEq] at hX
       obtain ⟨rfl, rfl, rfl⟩ := hX
       refine ⟨by simp, by simp, by simp, ?_, ?_, by simp⟩
       · intro x hx
         simp only [List.append_assoc, List.mem_append, List.mem_singleton,
           List.mem_cons, List.not_mem_nil, or_false] at hx
         rcases hx with hx | hx
         · exact Or.inl hx
         · refine Or.inr ⟨?_, ?_⟩ <;> (rintro rfl; simp_all)
       · intro hv
         simp only [List.append_assoc, List.mem_append, List.mem_singleton,
           List.mem_cons, List.not_mem_nil, or_false] at hv
         rcases hv with hv | hv
         · exact Or.inl hv
         · exact absurd hv (by simp))
    | (obtain ⟨h1, h2, h3, h4, h5, h6⟩ := connectTransport_facts _ _ _ _ _ _ h
       refine ⟨by rw [h1], h2, h3, ?_, ?_, h6⟩
       · intro x hx
         rcases h4 x hx with hx2 | hx2
         · simp only [List.append_assoc, List.mem_append, List.mem_singleton,
             List.mem_cons, List.not_mem_nil, or_false] at hx2
           rcases hx2 with hx2 | hx2
           · exact Or.inl hx2
           · refine Or.inr ⟨?_, ?_⟩ <;> (rintro rfl; simp_all)
         · exact Or.inr hx2
       · intro hv
         rcases h5 hv with hv2 | hv2
         · simp only [List.append_assoc, List.mem_append, List.mem_singleton,
             List.mem_cons, List.not_mem_nil, or_false] at hv2
           rcases hv2 with hv2 | hv2
           · exact Or.inl hv2
           · exact absurd hv2 (by simp)
         · exact Or.inr hv2)

/-- **C6**: for every `iot_tls_connect` run (on a non-null network) whose
effective parameters omit the root-CA location, the wrapper never loads or
parses a root certificate, never returns `NETWORK_X509_ROOT_CRT_PARSE_ERROR`,
never calls `mbedtls_ssl_get_verify_result`, and — on every run that gets
past the seeding step (the clearing happens at the trust-loading branch,
after the two seeding calls) — the resulting session state has
`ServerVerificationFlag` cleared. -/
theorem connect_no_root_ca_behavior :
    ∀ (net : Network) (params : Option TLSConnectParams) (O : ConnectOracle)
      (err : IoTError) (st : Network) (tr : List Event),
      iot_tls_connect (some net) params O = some (err, some st, tr) →
      (params.getD net.tlsConnectParams).pRootCALocation = none →
      Event.ssl_get_verify_result ∉ tr
      ∧ Event.rofs_readfile_root ∉ tr
      ∧ Event.x509_crt_parse_root ∉ tr
      ∧ err ≠ .NETWORK_X509_ROOT_CRT_PARSE_ERROR
      ∧ (err ≠ .NETWORK_MBEDTLS_ERR_CTR_DRBG_ENTROPY_SOURCE_FAILED →
          st.tlsConnectParams.ServerVerificationFlag = false) := by
  intro net params O err st tr h hca
  rw [iot_tls_connect] at h
  rcases hbody : connectBody net params O with - | ⟨e, n, tr0⟩
  · rw [hbody] at h
    exact absurd h (by simp)
  · rw [hbody] at h
    simp only [Option.some_inj, Prod.mk.injEq] at h
    obtain ⟨rfl, rfl, rfl⟩ := h
    simp only [connectBody] at hbody
    split at hbody
    · have hX := Option.some.inj hbody
      simp only [Prod.mk.injEq] at hX
      obtain ⟨rfl, rfl, rfl⟩ := hX
      refine ⟨by simp, by simp, by simp, by simp, by simp⟩
    · split at hbody
      · have hX := Option.some.inj hbody
        simp only [Prod.mk.injEq] at hX
        obtain ⟨rfl, rfl, rfl⟩ := hX
        refine ⟨by simp, by simp, by simp, by simp, by simp⟩
      · simp only [connectTrust, hca] at hbody
        obtain ⟨h1, h2, h3, h4, h5, h6⟩ := connectIdentity_facts _ _ _ _ _ _ hbody
        refine ⟨?_, ?_, ?_, h3, ?_⟩
        · intro hv
          rcases h5 hv with hv2 | hv2
          · simp at hv2
          · simp at hv2
        · intro hx
          rcases h4 _ hx with hx2 | hx2
          · simp at hx2
          · exact hx2.1 rfl
        · intro hx
          rcases h4 _ hx with hx2 | hx2
          · simp at hx2
          · exact hx2.2 rfl
        · intro _
          rw [h1]

/-- **C5** (amended): for every `iot_tls_connect` run that reaches
`SUCCESS` (an established session), peer verification follows the
session's `ServerVerificationFlag`: when the caller requested verification
(flag `true`) *and* supplied a root-CA reference, the authentication mode
is `required` and the verification-result check is performed; and in every
established session the check was performed if and only if the session
state's `ServerVerificationFlag` reads `true`, so a caller can detect a
connected-but-unverified session. -/
theorem connect_verification_skip_policy :
    ∀ (net : Network) (params : Option TLSConnectParams) (O : ConnectOracle)
      (st : Network) (tr : List Event),
      iot_tls_connect (some net) params O = some (.SUCCESS, some st, tr) →
      ((params.getD net.tlsConnectParams).ServerVerificationFlag = true →
        (params.getD net.tlsConnectParams).pRootCALocation.isSome = true →
          st.tlsDataParams.authmode = some .required
          ∧ Event.ssl_get_verify_result ∈ tr
          ∧ st.tlsConnectParams.ServerVerificationFlag = true)
      ∧ (Event.ssl_get_verify_result ∈ tr ↔
          st.tlsConnectParams.ServerVerificationFlag = true) := by
  intro net params O st tr h
  rw [iot_tls_connect] at h
  rcases hbody : connectBody net params O with - | ⟨e, n, tr0⟩
  · rw [hbody] at h
    exact absurd h (by simp)
  · rw [hbody] at h
    simp only [Option.some_inj, Prod.mk.injEq] at h
    obtain ⟨rfl, rfl, rfl⟩ := h
    simp only [connectBody] at hbody
    split at hbody
    · exact absurd hbody (by simp)
    · split at hbody
      · exact absurd hbody (by simp)
      · rcases hroot : (params.getD net.tlsConnectParams).pRootCALocation with - | s
        · -- no root CA: the flag is cleared and the check never runs
          simp only [connectTrust, hroot] at hbody
          obtain ⟨h1, h2, h3, h4, h5, h6⟩ := connectIdentity_facts _ _ _ _ _ _ hbody
          constructor
          · intro _ hro
            simp at hro
          · constructor
            · intro hv
              rcases h5 hv with hv2 | hv2
              · simp at hv2
              · simp at hv2
            · intro hf
              rw [h1] at hf
              simp at hf
        · -- root CA present: the flag is preserved into configuration
          simp only [connectTrust, hroot] at hbody
          split at hbody
          · exact absurd hbody (by simp)
          · split at hbody
            · exact absurd hbody (by simp)
            · obtain ⟨h1, h2, h3, h4, h5, h6⟩ := connectIdentity_facts _ _ _ _ _ _ hbody
              constructor
              · intro hflag _
                refine ⟨?_, ?_, ?_⟩
                · rw [h2 rfl]
                  simp [hflag]
                · exact h6 rfl (by simpa using hflag)
                · rw [h1]
                  simpa using hflag
              · constructor
                · intro hv
                  rcases h5 hv with hv2 | hv2
                  · simp at hv2
                  · rw [h1]
                    simpa using hv2
                · intro hf
                  rw [h1] at hf
                  exact h6 rfl (by simpa using hf)

/-- **C5** (counterexample): a connect() run that reaches Established with a
root-CA reference supplied but the caller's `ServerVerificationFlag` false.
Peer verification is skipped (no `mbedtls_ssl_get_verify_result` call) and
the authentication mode is `optional`, although a root CA was present — so
"skipped only when no root-CA reference was supplied" is false of the code.
-/
theorem connect_skip_with_root_ca_cex :
    iot_tls_connect (some exNetCex) none exOracle = some (.SUCCESS, some exStCex, exTrCex)
    ∧ exNetCex.tlsConnectParams.pRootCALocation.isSome = true
    ∧ exStCex.tlsDataParams.authmode = some .optional
    ∧ Event.ssl_get_verify_result ∉ exTrCex := by
  refine ⟨by decide, by decide, by decide, by decide⟩

/-- Witness for `connect_verification_skip_policy`: the `exNetV` run (root
CA present, verification requested) satisfies the theorem's hypotheses, and
the theorem yields required authmode, a performed check, and the flag still
set. -/
theorem connect_verification_skip_policy_witness :
    exStV.tlsDataParams.authmode = some .required
    ∧ Event.ssl_get_verify_result ∈ exTrV
    ∧ exStV.tlsConnectParams.ServerVerificationFlag = true :=
  (connect_verification_skip_policy exNetV none exOracle exStV exTrV (by decide)).1
    (by decide) (by decide)

/-- Witness for `connect_no_root_ca_behavior`: the `exNetN` run (no root CA,
verification requested by the caller) connects successfully, never calls the
verification check, and clears the flag in the resulting session state. -/
theorem connect_no_root_ca_behavior_witness :
    iot_tls_connect (some exNetN) none exOracle = some (.SUCCESS, some exStN, exTrN)
    ∧ Event.ssl_get_verify_result ∉ exTrN
    ∧ exStN.tlsConnectParams.ServerVerificationFlag = false := by
  have h := connect_no_root_ca_behavior exNetN none exOracle .SUCCESS exStN exTrN
    (by decide) (by decide)
  exact ⟨by decide, h.1, h.2.2.2.2 (by decide)⟩

/-- **C7**: `iot_tls_destroy` frees every resource any `iot_tls_connect` run
acquires.  All eight engine-owned objects (transport handle, both
certificate chains, key, TLS context, TLS configuration, DRBG, entropy) are
initialized up front — before the first failure exit — so every resource
with an init event in any run's trace, however early the run failed, is in
the destroy free list; the free list frees each resource exactly once per
call (no double free within a call); and destroy reads no session state, so
it acts identically (returning `SUCCESS`) on a session in any lifecycle
state, including one whose connect() failed at seeding, and a repeated call
performs exactly the same engine frees. -/
theorem destroy_frees_all_acquired :
    ∀ (net : Network) (params : Option TLSConnectParams) (O : ConnectOracle)
      (err : IoTError) (st : Option Network) (tr : List Event),
      iot_tls_connect (some net) params O = some (err, st, tr) →
      (∀ ev ∈ tr, ∀ res : Resource, Event.initResource ev = some res →
        ∀ d : Network, res ∈ (iot_tls_destroy d).2)
      ∧ (∀ d : Network, ((iot_tls_destroy d).2).Nodup)
      ∧ (∀ d₁ d₂ : Network, iot_tls_destroy d₁ = iot_tls_destroy d₂)
      ∧ (∀ d : Network, (iot_tls_destroy d).1 = .SUCCESS) := by
  intro net params O err st tr _h
  refine ⟨?_, ?_, ?_, ?_⟩
  · intro ev _hev res hres d
    cases ev <;> simp_all [Event.initResource, iot_tls_destroy]
  · intro d
    show ([Resource.server_fd, .clicert, .cacert, .pkey, .ssl, .conf,
      .ctr_drbg, .entropy]).Nodup
    decide
  · intro d₁ d₂
    rfl
  · intro d
    rfl

/-- Witness for `destroy_frees_all_acquired`: applied to the concrete
`exNetCex` run; the TLS context initialized by that run is freed, and the
free list holds no duplicates. -/
theorem destroy_frees_all_acquired_witness :
    Resource.ssl ∈ (iot_tls_destroy exNetCex).2 ∧ ((iot_tls_destroy exNetCex).2).Nodup := by
  have h := destroy_frees_all_acquired exNetCex none exOracle .SUCCESS (some exStCex) exTrCex
    (by decide)
  exact ⟨h.1 .ssl_init (by decide) .ssl rfl exNetCex, h.2.1 exNetCex⟩
